import Mathlib

/-!
Verification development for the Orion orchestrator repository.

The definitions below are a shallow embedding of the orchestration core:

* `OAgent`, `updatePerformance`, `findCandidates`, `findBestAgent` embed the
  server (`OrchestrationAgent`, `updatePerformance`, `findBestAgent` and the
  candidate pipeline it contains).  JavaScript numbers are modelled as `ℚ`;
  wall-clock timestamps (`lastSeen`, `createdAt`, ...) are omitted as they
  carry no decision logic.  A JavaScript `Array.prototype.sort` with a
  comparator is, per the ECMAScript specification, a *stable* sort consistent
  with the comparator; it is embedded as `List.insertionSort` with the
  comparator's non-strict preorder, which is stable in exactly the same sense.
* `DemoAgent`, `executeTaskDemo`, `executeWorkflowDemo` embed the demo
  orchestrator (`OrionAgent`, `CollaborativeWorkflowOrchestrator`).  The
  outcome of a single agent attempt (driven by `Math.random` in the source)
  is supplied by an oracle `att`.  The demo never mutates any field consulted
  by candidate selection (see the frame theorem for the demo agent), so a
  fixed agent list together with an outcome oracle is a faithful model of one
  dispatch.
* `phaseP`, `phaseS`, `workflowTrace` embed `executeWorkflow`'s partition of
  a workflow's tasks and the event order produced by its control flow
  (dispatch all of Phase P, `await` all settlements, then run Phase S
  strictly in order).  The unknown settlement order of the parallel phase is
  a parameter.
* `ChannelState`, `fireTimeout`, `deliverCompletion` embed the states of the
  promise / `setTimeout` / `socket.once` triple inside
  `executeWorkflowTask`: a promise resolves at most once (first `resolve`
  wins), the `once` listener fires at most once and the completion handler
  calls `clearTimeout`, while the timeout callback does *not* deregister the
  completion listener.
* `StoredTask`, `postTasks` embed the `POST /tasks` route handler.
-/

/-- Rolling performance statistics of a server-side agent
(the `performance` object of `OrchestrationAgent`). -/
structure Perf where
  successRate : ℚ
  totalTasks : ℕ
  totalResponseTime : ℚ
deriving DecidableEq

/-- Server-side agent (`OrchestrationAgent`).  `lastSeen` is omitted
(wall-clock timestamp with no decision logic). -/
structure OAgent where
  id : String
  capabilities : List String
  socketId : String
  status : String
  tasksCompleted : ℕ
  avgResponseTime : ℚ
  performance : Perf
deriving DecidableEq

/-- `new OrchestrationAgent(id, capabilities, socketId)`: status `active`,
zero counters, and an initial `successRate` of `0.95`. -/
def newOrchestrationAgent (id : String) (capabilities : List String)
    (socketId : String) : OAgent :=
  ⟨id, capabilities, socketId, "active", 0, 0, ⟨19 / 20, 0, 0⟩⟩

/-- `OrchestrationAgent.updatePerformance(responseTime, success)`:
`performance.totalTasks` is always incremented; on success
`tasksCompleted`, `performance.totalResponseTime` and the derived
`avgResponseTime` are updated; in both cases `performance.successRate`
is recomputed as `tasksCompleted / totalTasks`. -/
def updatePerformance (a : OAgent) (responseTime : ℚ) (success : Bool) : OAgent :=
  let totalTasks := a.performance.totalTasks + 1
  if success then
    let tc := a.tasksCompleted + 1
    let trt := a.performance.totalResponseTime + responseTime
    { a with
      tasksCompleted := tc
      avgResponseTime := trt / (tc : ℚ)
      performance := ⟨(tc : ℚ) / (totalTasks : ℚ), totalTasks, trt⟩ }
  else
    { a with
      performance :=
        ⟨(a.tasksCompleted : ℚ) / (totalTasks : ℚ), totalTasks,
          a.performance.totalResponseTime⟩ }

/-- `OrchestrationAgent.canHandle(capability)`. -/
def canHandle (a : OAgent) (capability : String) : Bool :=
  a.capabilities.contains capability

/-- The filter used by `findBestAgent`: capable and `status === 'active'`. -/
def suitable (a : OAgent) (capability : String) : Bool :=
  canHandle a capability && (a.status == "active")

/-- The comparator `(a, b) => b.performance.successRate - a.performance.successRate`
read as a non-strict preorder: `a` may come before `b` iff
`b.successRate ≤ a.successRate`. -/
def agentLe (x y : OAgent) : Prop :=
  y.performance.successRate ≤ x.performance.successRate

instance : DecidableRel agentLe := fun x y =>
  inferInstanceAs (Decidable (y.performance.successRate ≤ x.performance.successRate))

/-- The candidate pipeline inside `findBestAgent`: filter to capable active
agents (in registration order, since `Map` iteration preserves insertion
order), then stable-sort by descending `successRate`. -/
def findCandidates (agents : List OAgent) (capability : String) : List OAgent :=
  List.insertionSort agentLe (agents.filter (fun a => suitable a capability))

/-- `findBestAgent(capability)`: head of the ranked candidate list, if any. -/
def findBestAgent (agents : List OAgent) (capability : String) : Option OAgent :=
  (findCandidates agents capability).head?

/-- Tag a registry (a list in registration order) with registration indices. -/
def tagFrom {α : Type} (n : ℕ) : List α → List (ℕ × α)
  | [] => []
  | a :: l => (n, a) :: tagFrom (n + 1) l

/-- The sort comparator of `findBestAgent` lifted to index-tagged agents. -/
def rankLe (x y : ℕ × OAgent) : Prop := agentLe x.2 y.2

instance : DecidableRel rankLe := fun x y =>
  inferInstanceAs (Decidable (agentLe x.2 y.2))

/-- Total order: descending `successRate`, ties by ascending registration
index.  This is what the code's stable sort actually realises. -/
def regLe (x y : ℕ × OAgent) : Prop :=
  y.2.performance.successRate < x.2.performance.successRate ∨
    (x.2.performance.successRate = y.2.performance.successRate ∧ x.1 ≤ y.1)

instance : DecidableRel regLe := fun x y =>
  inferInstanceAs (Decidable (_ ∨ _))

/-- Modelled from the spec's words, for comparison with the code: descending
`successRate`, ties by ascending `avgResponseTime`, remaining ties by
registration index. -/
def specLe (x y : ℕ × OAgent) : Prop :=
  y.2.performance.successRate < x.2.performance.successRate ∨
    (x.2.performance.successRate = y.2.performance.successRate ∧
      (x.2.avgResponseTime < y.2.avgResponseTime ∨
        (x.2.avgResponseTime = y.2.avgResponseTime ∧ x.1 ≤ y.1)))

instance : DecidableRel specLe := fun x y =>
  inferInstanceAs (Decidable (_ ∨ _))

/-- The candidate ordering the spec sentence claims (with the
`avgResponseTime` tie-break), built from the spec's words. -/
def findCandidatesSpec (agents : List OAgent) (capability : String) : List OAgent :=
  (List.insertionSort specLe
    ((tagFrom 0 agents).filter (fun p => suitable p.2 capability))).map Prod.snd

/-- The ordering the code realises: descending `successRate`, ties by
registration order. -/
def rankedByReg (agents : List OAgent) (capability : String) : List OAgent :=
  (List.insertionSort regLe
    ((tagFrom 0 agents).filter (fun p => suitable p.2 capability))).map Prod.snd

/-- A workflow task as submitted (`{name, type, capability, complexity,
parallel, dependencies?}`).  `dependencies` is `none` when the field is
absent; a present-but-empty array is `some []` (JavaScript `![]` is
`false`, so such a task is *not* in the parallel phase). -/
structure WTask where
  name : String
  taskType : String
  capability : String
  complexity : String
  parallel : Bool
  dependencies : Option (List String)
deriving DecidableEq

/-- `workflow.tasks.filter(task => task.parallel && !task.dependencies)`. -/
def phaseP (tasks : List WTask) : List WTask :=
  tasks.filter (fun t => t.parallel && t.dependencies.isNone)

/-- `workflow.tasks.filter(task => !task.parallel || task.dependencies)`. -/
def phaseS (tasks : List WTask) : List WTask :=
  tasks.filter (fun t => !t.parallel || t.dependencies.isSome)

/-- Demo agent (`OrionAgent` of `collaboration-demo.js`).  `avgResponseTime`
and `successRate` are constructor parameters; only `tasksCompleted` and
`totalResponseTime` are ever reassigned. -/
structure DemoAgent where
  id : String
  capabilities : List String
  avgResponseTime : ℚ
  successRate : ℚ
  tasksCompleted : ℕ
  totalResponseTime : ℚ
  isActive : Bool
deriving DecidableEq

/-- `new OrionAgent(id, capabilities, avgResponseTime, successRate)`. -/
def newOrionAgent (id : String) (capabilities : List String)
    (avgResponseTime successRate : ℚ) : DemoAgent :=
  ⟨id, capabilities, avgResponseTime, successRate, 0, 0, true⟩

/-- Outcome of one `OrionAgent.executeTask` attempt (the `Math.random` draws
are supplied by an oracle). -/
structure DemoResult where
  success : Bool
  duration : ℚ
deriving DecidableEq

/-- The state change `OrionAgent.executeTask` performs for a given outcome:
on success `tasksCompleted++` and `totalResponseTime += processingTime`;
on failure the agent is untouched. -/
def demoApplyOutcome (a : DemoAgent) (success : Bool) (duration : ℚ) : DemoAgent :=
  if success then
    { a with
      tasksCompleted := a.tasksCompleted + 1
      totalResponseTime := a.totalResponseTime + duration }
  else a

/-- Run a demo agent through a sequence of attempt outcomes. -/
def demoRun (a : DemoAgent) (outs : List (Bool × ℚ)) : DemoAgent :=
  outs.foldl (fun b o => demoApplyOutcome b o.1 o.2) a

/-- The comparator `(a, b) => b.successRate - a.successRate` of the demo's
`executeTask`, as a non-strict preorder. -/
def demoCandLe (x y : DemoAgent) : Prop := y.successRate ≤ x.successRate

instance : DecidableRel demoCandLe := fun x y =>
  inferInstanceAs (Decidable (y.successRate ≤ x.successRate))

/-- The `suitableAgents` pipeline of the demo's `executeTask`: filter by
capability (the demo has no activity check), stable sort by descending
`successRate`. -/
def findCandidatesDemo (agents : List DemoAgent) (capability : String) :
    List DemoAgent :=
  List.insertionSort demoCandLe
    (agents.filter (fun a => a.capabilities.contains capability))

/-- A dispatch result (`{task, agent?, success, error?, duration}`); the
opaque payload fields (`insights`, `metrics`) are out of scope. -/
structure TaskResult where
  task : String
  agent : Option String
  success : Bool
  error : Option String
  duration : ℚ
deriving DecidableEq

/-- The fallback loop of the demo's `executeTask`: try candidates in order,
return on the first success; when the list is exhausted, return the
all-failed result whose `duration` is the last attempt's (`0` if none).
Also returns the ids of the agents actually invoked, in invocation order,
and the post-attempt states of the agents whose state changed. -/
def dispatchGo (att : DemoAgent → DemoResult) (taskName : String) :
    List DemoAgent → ℚ → TaskResult × List String × List DemoAgent
  | [], lastDur =>
    (⟨taskName, none, false, some "All suitable agents failed", lastDur⟩, [], [])
  | a :: rest, _ =>
    let r := att a
    if r.success then
      (⟨taskName, some a.id, true, none, r.duration⟩, [a.id],
        [demoApplyOutcome a true r.duration])
    else
      let res := dispatchGo att taskName rest r.duration
      (res.1, a.id :: res.2.1, res.2.2)

/-- `CollaborativeWorkflowOrchestrator.executeTask(task)`. -/
def executeTaskDemo (agents : List DemoAgent) (t : WTask)
    (att : DemoAgent → DemoResult) : TaskResult × List String × List DemoAgent :=
  let cands := findCandidatesDemo agents t.capability
  if cands.isEmpty then
    (⟨t.name, none, false, some "No suitable agent found", 0⟩, [], [])
  else dispatchGo att t.name cands 0

/-- A demo workflow submission. -/
structure DemoWorkflow where
  name : String
  tasks : List WTask
deriving DecidableEq

/-- Aggregated demo workflow result (`{workflow, results, success}`;
`totalDuration` and `timestamp` are wall-clock, omitted). -/
structure WorkflowResult where
  workflow : String
  results : List TaskResult
  success : Bool
deriving DecidableEq

/-- `CollaborativeWorkflowOrchestrator.executeWorkflow(workflow)`: run the
parallel phase, then the sequential phase, collect one result per task and
set `success = results.every(r => r.success)`.  Candidate selection reads
only fields the demo never mutates, so a fixed agent list plus a per-task
outcome oracle is faithful. -/
def executeWorkflowDemo (agents : List DemoAgent) (w : DemoWorkflow)
    (att : WTask → DemoAgent → DemoResult) : WorkflowResult :=
  let pres := (phaseP w.tasks).map (fun t => (executeTaskDemo agents t (att t)).1)
  let sres := (phaseS w.tasks).map (fun t => (executeTaskDemo agents t (att t)).1)
  let results := pres ++ sres
  ⟨w.name, results, results.all (fun r => r.success)⟩

/-- Result of one server-side `executeWorkflowTask` (`{task, agent?,
success, error?}`; durations and timestamps omitted). -/
structure WTaskResult where
  task : String
  agent : Option String
  success : Bool
  error : Option String
deriving DecidableEq

/-- Server-side `executeWorkflowTask(task, socket)`.  `att = none` models
the 30s timeout winning the race, `att = some ok` a completion signal
carrying success flag `ok`.  The second component is the socket the
assignment was emitted to (`none` = no worker contacted). -/
def executeWorkflowTaskSrv (registry : List OAgent) (t : WTask)
    (att : Option Bool) : WTaskResult × Option String :=
  match findBestAgent registry t.capability with
  | none => (⟨t.name, none, false, some "No suitable agent available"⟩, none)
  | some a =>
    match att with
    | none => (⟨t.name, some a.id, false, some "Task timeout"⟩, some a.socketId)
    | some ok => (⟨t.name, some a.id, ok, none⟩, some a.socketId)

/-- A server-side workflow record. -/
structure SWorkflow where
  name : String
  tasks : List WTask
  status : String
  results : List WTaskResult
deriving DecidableEq

/-- Server-side `executeWorkflow(workflow, socket)`: push the parallel-phase
results, then the sequential-phase results, then set
`workflow.status = 'completed'` unconditionally. -/
def executeWorkflowSrv (registry : List OAgent) (w : SWorkflow)
    (att : WTask → Option Bool) : SWorkflow :=
  let pres := (phaseP w.tasks).map
    (fun t => (executeWorkflowTaskSrv registry t (att t)).1)
  let sres := (phaseS w.tasks).map
    (fun t => (executeWorkflowTaskSrv registry t (att t)).1)
  { w with results := w.results ++ pres ++ sres, status := "completed" }

/-- Events of the workflow scheduler's control flow, tagged by phase. -/
inductive WEvent where
  | dispatchP : String → WEvent
  | settleP : String → WEvent
  | dispatchS : String → WEvent
  | settleS : String → WEvent
deriving DecidableEq

/-- The event order `executeWorkflow` produces: the parallel phase is
dispatched in list order, `await` of the join completes only after all its
settlements (in an arbitrary order `settleOrder`), and only then is each
sequential task dispatched and awaited, one at a time, in list order. -/
def workflowTrace (tasks : List WTask) (settleOrder : List WTask) : List WEvent :=
  ((phaseP tasks).map (fun t => WEvent.dispatchP t.name))
    ++ (settleOrder.map (fun t => WEvent.settleP t.name))
    ++ ((phaseS tasks).flatMap (fun t => [WEvent.dispatchS t.name, WEvent.settleS t.name]))

/-- State of the promise / timeout / completion-listener triple inside one
server-side `executeWorkflowTask` attempt. -/
structure ChannelState where
  resolved : Option WTaskResult
  listenerActive : Bool
  timerActive : Bool
deriving DecidableEq

/-- Both the `setTimeout` and the `socket.once` listener are registered
before either can fire. -/
def channelInit : ChannelState := ⟨none, true, true⟩

/-- `resolve(v)`: a promise settles at most once; later calls are no-ops. -/
def resolveOnce (s : ChannelState) (v : WTaskResult) : ChannelState :=
  match s.resolved with
  | some _ => s
  | none => { s with resolved := some v }

/-- The timeout callback firing: the timer is one-shot and the callback
resolves the promise with the timeout result.  The completion listener is
*not* deregistered (there is no `socket.off` in the source). -/
def fireTimeout (s : ChannelState) (timeoutRes : WTaskResult) : ChannelState :=
  if s.timerActive then
    { resolveOnce s timeoutRes with timerActive := false }
  else s

/-- A completion signal for this attempt's correlation token arriving: the
`once` listener fires at most once; its handler calls `clearTimeout` and
then `resolve`. -/
def deliverCompletion (s : ChannelState) (compRes : WTaskResult) : ChannelState :=
  if s.listenerActive then
    resolveOnce { s with listenerActive := false, timerActive := false } compRes
  else s

/-- A stored ad-hoc task as created by the `POST /tasks` route
(`data`, `createdAt` and `result` omitted as opaque / wall-clock). -/
structure StoredTask where
  id : String
  taskType : String
  capability : String
  priority : String
  status : String
  assignedAgent : Option String
deriving DecidableEq

/-- The `POST /tasks` handler: create the task (`status 'pending'`,
`assignedAgent null`), store it, assign it to `findBestAgent(capability)`
when one exists (the stored object is mutated in place, so the store and the
201 response both reflect the assignment), and respond 201 with the task.
Returns (http status, response task, new task store, emit target). -/
def postTasks (registry : List OAgent) (tasks : List StoredTask)
    (rType rCap rPriority freshId : String) :
    ℕ × StoredTask × List StoredTask × Option String :=
  let t0 : StoredTask := ⟨freshId, rType, rCap, rPriority, "pending", none⟩
  match findBestAgent registry rCap with
  | some a =>
    let t1 := { t0 with assignedAgent := some a.id, status := "assigned" }
    (201, t1, tasks ++ [t1], some a.socketId)
  | none => (201, t0, tasks ++ [t0], none)

/-- Fold `updatePerformance` over a sequence of `(responseTime, success)`
attempt outcomes. -/
def applyUpdates (a : OAgent) (outs : List (ℚ × Bool)) : OAgent :=
  outs.foldl (fun b o => updatePerformance b o.1 o.2) a

/-- Two capable active agents with equal `successRate` and different
`avgResponseTime`; `agC1A` is registered first. -/
def agC1A : OAgent := ⟨"A", ["x"], "sA", "active", 4, 200, ⟨1, 4, 800⟩⟩

/-- Registered second, same `successRate` as `agC1A`, faster average. -/
def agC1B : OAgent := ⟨"B", ["x"], "sB", "active", 4, 100, ⟨1, 4, 400⟩⟩

/-- A fresh agent after one successful attempt (`successRate` becomes 1). -/
def agC6 : OAgent := updatePerformance (newOrchestrationAgent "A" ["x"] "s") 100 true

/-- A freshly registered agent: zero attempts. -/
def freshC7 : OAgent := newOrchestrationAgent "F" ["x"] "sF"

/-- An agent with a 1-success / 2-attempts lifetime record: a positive
lifetime success ratio of one half. -/
def veteranC7 : OAgent :=
  applyUpdates (newOrchestrationAgent "B" ["x"] "sB")
    [((100 : ℚ), true), ((100 : ℚ), false)]

/-- A demo agent used to instantiate the dispatch theorems. -/
def agW : DemoAgent := newOrionAgent "A" ["x"] 100 1

/-- A concrete workflow task requiring capability `x`. -/
def wtW : WTask := ⟨"t", "x", "x", "medium", true, none⟩

/-- An outcome oracle whose every attempt succeeds with duration 5. -/
def attW : DemoAgent → DemoResult := fun _ => ⟨true, 5⟩

/-- A sequential task whose dispatch will fail (no agents registered). -/
def wtC5 : WTask := ⟨"t1", "performance-analysis", "x", "medium", false, none⟩

/-- A server workflow holding the single task `wtC5`. -/
def wfC5 : SWorkflow := ⟨"w", [wtC5], "executing", []⟩

/-- The result the timeout callback resolves with. -/
def timeoutResC3 : WTaskResult := ⟨"t", some "A", false, some "Task timeout"⟩

/-- The result a late completion signal would carry. -/
def lateResC3 : WTaskResult := ⟨"t", some "A", true, none⟩

/-- Parallel task A of the phase-discipline witness workflow. -/
def wtA : WTask := ⟨"A", "a", "performance-analysis", "complex", true, none⟩

/-- Parallel task B. -/
def wtB : WTask := ⟨"B", "b", "security-scan", "medium", true, none⟩

/-- Parallel task C. -/
def wtC : WTask := ⟨"C", "c", "health-monitoring", "simple", true, none⟩

/-- Sequential task D, depending on A. -/
def wtD : WTask := ⟨"D", "d", "code-review", "medium", false, some ["A"]⟩

/-- Top-ranked capable active agent for the server-dispatch counterexample. -/
def srvB : OAgent := ⟨"B", ["x"], "sB", "active", 2, 100, ⟨1, 2, 200⟩⟩

/-- A second capable active agent, ranked below `srvB`. -/
def srvA : OAgent := ⟨"A", ["x"], "sA", "active", 0, 0, ⟨0, 1, 0⟩⟩

/-- A workflow task requiring capability `x`, dispatched on the server. -/
def wtC2 : WTask := ⟨"t", "x", "x", "medium", false, none⟩

lemma mapSndOrderedInsert (x : ℕ × OAgent) :
    ∀ l : List (ℕ × OAgent),
      (List.orderedInsert rankLe x l).map Prod.snd
        = List.orderedInsert agentLe x.2 (l.map Prod.snd)
  | [] => rfl
  | y :: l => by
    by_cases h : agentLe x.2 y.2
    · simp [List.orderedInsert, rankLe, h]
    · simp [List.orderedInsert, rankLe, h, mapSndOrderedInsert x l]

lemma mapSndInsertionSort :
    ∀ l : List (ℕ × OAgent),
      (List.insertionSort rankLe l).map Prod.snd
        = List.insertionSort agentLe (l.map Prod.snd)
  | [] => rfl
  | x :: l => by
    simp [List.insertionSort, mapSndInsertionSort l, mapSndOrderedInsert x]

lemma tagFromFilterMapSnd (capability : String) :
    ∀ (n : ℕ) (l : List OAgent),
      ((tagFrom n l).filter (fun p => suitable p.2 capability)).map Prod.snd
        = l.filter (fun a => suitable a capability)
  | _, [] => rfl
  | n, a :: l => by
    cases h : suitable a capability <;>
      simp [tagFrom, List.filter_cons, h, tagFromFilterMapSnd capability (n + 1) l]

lemma tagFromFstLe {α : Type} :
    ∀ (n : ℕ) (l : List α) (y : ℕ × α), y ∈ tagFrom n l → n ≤ y.1
  | _, [], y, h => by simp [tagFrom] at h
  | n, a :: l, y, h => by
    rw [tagFrom] at h
    rcases List.mem_cons.mp h with h1 | h1
    · rw [h1]
    · exact Nat.le_of_succ_le (tagFromFstLe (n + 1) l y h1)

lemma tagFromPairwise {α : Type} :
    ∀ (n : ℕ) (l : List α), (tagFrom n l).Pairwise (fun x y => x.1 < y.1)
  | _, [] => List.Pairwise.nil
  | n, a :: l => by
    refine List.Pairwise.cons ?_ (tagFromPairwise (n + 1) l)
    intro y hy
    exact Nat.lt_of_succ_le (tagFromFstLe (n + 1) l y hy)

lemma rankLeIffRegLe {x y : ℕ × OAgent} (hlt : x.1 < y.1) :
    rankLe x y ↔ regLe x y := by
  unfold rankLe regLe agentLe
  constructor
  · intro hle
    rcases lt_or_eq_of_le hle with h1 | h1
    · exact Or.inl h1
    · exact Or.inr ⟨h1.symm, le_of_lt hlt⟩
  · intro hor
    rcases hor with h1 | ⟨h1, _⟩
    · exact le_of_lt h1
    · exact le_of_eq h1.symm

lemma orderedInsertRankReg (x : ℕ × OAgent) :
    ∀ l : List (ℕ × OAgent), (∀ y ∈ l, x.1 < y.1) →
      List.orderedInsert rankLe x l = List.orderedInsert regLe x l
  | [], _ => rfl
  | y :: l, h => by
    have hxy : rankLe x y ↔ regLe x y := rankLeIffRegLe (h y (by simp))
    by_cases hc : rankLe x y
    · simp only [List.orderedInsert, if_pos hc, if_pos (hxy.mp hc)]
    · simp only [List.orderedInsert, if_neg hc, if_neg (fun hr => hc (hxy.mpr hr))]
      rw [orderedInsertRankReg x l (fun z hz => h z (by simp [hz]))]

lemma insertionSortRankReg :
    ∀ l : List (ℕ × OAgent), l.Pairwise (fun x y => x.1 < y.1) →
      List.insertionSort rankLe l = List.insertionSort regLe l
  | [], _ => rfl
  | x :: l, h => by
    have hp := List.pairwise_cons.mp h
    simp only [List.insertionSort]
    rw [insertionSortRankReg l hp.2]
    refine orderedInsertRankReg x _ (fun y hy => hp.1 y ?_)
    exact (List.perm_insertionSort regLe l).mem_iff.mp hy

instance : IsTotal (ℕ × OAgent) regLe := by
  refine ⟨fun x y => ?_⟩
  unfold regLe
  rcases lt_trichotomy x.2.performance.successRate y.2.performance.successRate with h | h | h
  · exact Or.inr (Or.inl h)
  · rcases Nat.le_total x.1 y.1 with hn | hn
    · exact Or.inl (Or.inr ⟨h, hn⟩)
    · exact Or.inr (Or.inr ⟨h.symm, hn⟩)
  · exact Or.inl (Or.inl h)

instance : IsTrans (ℕ × OAgent) regLe := by
  refine ⟨fun x y z hxy hyz => ?_⟩
  unfold regLe at hxy hyz ⊢
  rcases hxy with h1 | ⟨h1, h1n⟩
  · rcases hyz with h2 | ⟨h2, _⟩
    · exact Or.inl (lt_trans h2 h1)
    · exact Or.inl (h2 ▸ h1)
  · rcases hyz with h2 | ⟨h2, h2n⟩
    · exact Or.inl (h1 ▸ h2)
    · exact Or.inr ⟨h1.trans h2, le_trans h1n h2n⟩

lemma memTakeWhile {α : Type} (p : α → Bool) :
    ∀ (l : List α) (a : α), a ∈ l.takeWhile p → p a = true
  | [], a, h => by simp [List.takeWhile] at h
  | b :: l, a, h => by
    cases hpb : p b
    · simp [List.takeWhile_cons, hpb] at h
    · simp [List.takeWhile_cons, hpb] at h
      rcases h with h1 | h1
      · rw [h1]; exact hpb
      · exact memTakeWhile p l a h1

lemma takeWhileBoundary {α : Type} (p : α → Bool) :
    ∀ (l : List α) (w : α) (rest : List α), l.takeWhile p ++ w :: rest = l → p w = false
  | [], w, rest, h => by simp at h
  | b :: l, w, rest, h => by
    cases hpb : p b
    · simp [List.takeWhile_cons, hpb] at h
      rw [h.1]; exact hpb
    · simp [List.takeWhile_cons, hpb] at h
      exact takeWhileBoundary p l w rest h

lemma dispatchGoAllFail (att : DemoAgent → DemoResult) (nm : String) :
    ∀ (l : List DemoAgent) (d : ℚ), (∀ a ∈ l, (att a).success = false) →
      (dispatchGo att nm l d).1.success = false ∧
      (dispatchGo att nm l d).1.error = some "All suitable agents failed" ∧
      (dispatchGo att nm l d).2.1 = l.map (fun a => a.id)
  | [], d, _ => by simp [dispatchGo]
  | a :: rest, d, h => by
    have ha : (att a).success = false := h a (by simp)
    have ih := dispatchGoAllFail att nm rest (att a).duration
      (fun b hb => h b (by simp [hb]))
    simp [dispatchGo, ha, ih.1, ih.2.1, ih.2.2]

lemma dispatchGoFirstSuccess (att : DemoAgent → DemoResult) (nm : String)
    (w : DemoAgent) (hw : (att w).success = true) :
    ∀ (pre : List DemoAgent) (rest : List DemoAgent) (d : ℚ),
      (∀ a ∈ pre, (att a).success = false) →
      (dispatchGo att nm (pre ++ w :: rest) d).1
          = ⟨nm, some w.id, true, none, (att w).duration⟩ ∧
      (dispatchGo att nm (pre ++ w :: rest) d).2.1
          = pre.map (fun a => a.id) ++ [w.id]
  | [], rest, d, _ => by simp [dispatchGo, hw]
  | a :: pre, rest, d, h => by
    have ha : (att a).success = false := h a (by simp)
    have ih := dispatchGoFirstSuccess att nm w hw pre rest (att a).duration
      (fun b hb => h b (by simp [hb]))
    simp [dispatchGo, ha, ih.1, ih.2]

lemma updTotalTasks (a : OAgent) (rt : ℚ) (s : Bool) :
    (updatePerformance a rt s).performance.totalTasks = a.performance.totalTasks + 1 := by
  cases s <;> simp [updatePerformance]

lemma updRate (a : OAgent) (rt : ℚ) (s : Bool) :
    (updatePerformance a rt s).performance.successRate
      = ((updatePerformance a rt s).tasksCompleted : ℚ)
        / ((updatePerformance a rt s).performance.totalTasks : ℚ) := by
  cases s <;> simp [updatePerformance]

lemma applyUpdatesTotal :
    ∀ (outs : List (ℚ × Bool)) (a : OAgent),
      (applyUpdates a outs).performance.totalTasks
        = a.performance.totalTasks + outs.length
  | [], a => by simp [applyUpdates]
  | o :: rest, a => by
    have ih := applyUpdatesTotal rest (updatePerformance a o.1 o.2)
    simp only [applyUpdates, List.foldl_cons] at ih ⊢
    rw [ih, updTotalTasks, List.length_cons]
    omega

lemma applyUpdatesCompleted :
    ∀ (outs : List (ℚ × Bool)) (a : OAgent),
      (applyUpdates a outs).tasksCompleted
        = a.tasksCompleted + (outs.filter (fun o => o.2)).length
  | [], a => by simp [applyUpdates]
  | o :: rest, a => by
    have ih := applyUpdatesCompleted rest (updatePerformance a o.1 o.2)
    simp only [applyUpdates, List.foldl_cons] at ih ⊢
    rw [ih]
    cases ho : o.2 <;> simp [List.filter_cons, ho, updatePerformance] <;> omega

lemma applyUpdatesRate :
    ∀ (outs : List (ℚ × Bool)) (a : OAgent), outs ≠ [] →
      (applyUpdates a outs).performance.successRate
        = ((applyUpdates a outs).tasksCompleted : ℚ)
          / ((applyUpdates a outs).performance.totalTasks : ℚ)
  | [], _, h => absurd rfl h
  | o :: rest, a, _ => by
    by_cases hr : rest = []
    · subst hr
      simp only [applyUpdates, List.foldl_cons, List.foldl_nil]
      exact updRate a o.1 o.2
    · have ih := applyUpdatesRate rest (updatePerformance a o.1 o.2) hr
      simpa [applyUpdates, List.foldl_cons] using ih

lemma demoApplyFrame (a : DemoAgent) (s : Bool) (d : ℚ) :
    (demoApplyOutcome a s d).successRate = a.successRate ∧
    (demoApplyOutcome a s d).id = a.id ∧
    (demoApplyOutcome a s d).capabilities = a.capabilities ∧
    (demoApplyOutcome a s d).avgResponseTime = a.avgResponseTime ∧
    (demoApplyOutcome a s d).isActive = a.isActive := by
  cases s <;> simp [demoApplyOutcome]

lemma demoRunFrame :
    ∀ (outs : List (Bool × ℚ)) (a : DemoAgent),
      (demoRun a outs).successRate = a.successRate ∧
      (demoRun a outs).id = a.id ∧
      (demoRun a outs).capabilities = a.capabilities ∧
      (demoRun a outs).avgResponseTime = a.avgResponseTime ∧
      (demoRun a outs).isActive = a.isActive
  | [], a => by simp [demoRun]
  | o :: rest, a => by
    have ih := demoRunFrame rest (demoApplyOutcome a o.1 o.2)
    have hs := demoApplyFrame a o.1 o.2
    simp only [demoRun, List.foldl_cons] at ih ⊢
    exact ⟨ih.1.trans hs.1, ih.2.1.trans hs.2.1, ih.2.2.1.trans hs.2.2.1,
      ih.2.2.2.1.trans hs.2.2.2.1, ih.2.2.2.2.trans hs.2.2.2.2⟩

lemma boolPhaseCompl (b : Bool) (o : Option (List String)) :
    (!b || o.isSome) = !(b && o.isNone) := by
  cases b <;> cases o <;> rfl

lemma phaseSCompl (tasks : List WTask) :
    phaseS tasks = tasks.filter (fun t => !(t.parallel && t.dependencies.isNone)) := by
  unfold phaseS
  exact List.filter_congr (fun t _ => boolPhaseCompl t.parallel t.dependencies)

lemma subApp {α : Type} (r₁ : List α) {l r₂ : List α} (h : l.Sublist r₂) :
    l.Sublist (r₁ ++ r₂) :=
  (List.nil_sublist r₁).append h

lemma phasePartitionPerm (tasks : List WTask) :
    (phaseP tasks ++ phaseS tasks).Perm tasks := by
  rw [phaseSCompl]
  exact List.filter_append_perm _ tasks

/-- Claim C1 (amended): `findBestAgent`'s candidate query returns the capable
active agents sorted by descending `successRate` with ties broken by
registration (insertion) order only — the stable sort by the single
`successRate` comparator coincides, on any index-tagged registry, with the
sort by the total order `regLe` (descending rate, then ascending
registration index), and that ordering is sorted with respect to `regLe`.
The claimed `avgResponseTime` tie-break does not exist in the code. -/
theorem findCandidates_rank_by_registration (agents : List OAgent) (capability : String) :
    findCandidates agents capability = rankedByReg agents capability ∧
    (List.insertionSort regLe
      ((tagFrom 0 agents).filter (fun p => suitable p.2 capability))).Sorted regLe := by
  constructor
  · unfold findCandidates rankedByReg
    rw [← tagFromFilterMapSnd capability 0 agents, ← mapSndInsertionSort,
      insertionSortRankReg _ (List.Pairwise.filter _ (tagFromPairwise 0 agents))]
  · exact List.sorted_insertionSort regLe _

/-- Claim C1 counterexample: two capable active agents with equal
`successRate`; the earlier-registered one has the slower `avgResponseTime`.
The code keeps registration order, while the spec's claimed ordering (ties
broken by ascending average response time) would swap them. -/
theorem findCandidates_tiebreak_counterexample :
    findCandidates [agC1A, agC1B] "x" = [agC1A, agC1B] ∧
    findCandidatesSpec [agC1A, agC1B] "x" = [agC1B, agC1A] ∧
    findCandidates [agC1A, agC1B] "x" ≠ findCandidatesSpec [agC1A, agC1B] "x" := by
  refine ⟨by decide, by decide, by decide⟩

/-- Claim C3 (code bug): when the 30-second timeout fires first, the attempt
resolves with the timeout result, but the `socket.once` completion listener
is NOT retired (the timeout callback contains no `socket.off`).  A stale
completion arriving later is absorbed only because a promise resolves at
most once: the resolved value stays the timeout result. -/
theorem timeout_leaves_listener_registered :
    (fireTimeout channelInit timeoutResC3).resolved = some timeoutResC3 ∧
    (fireTimeout channelInit timeoutResC3).listenerActive = true ∧
    (deliverCompletion (fireTimeout channelInit timeoutResC3) lateResC3).resolved
        = some timeoutResC3 ∧
    (deliverCompletion (fireTimeout channelInit timeoutResC3) lateResC3).listenerActive
        = false := by
  refine ⟨by decide, by decide, by decide, by decide⟩

/-- Claim C2 (amended, demo orchestrator): the demo dispatcher tries the
ranked candidates one at a time in order.  If some candidate succeeds, the
result is a success attributed to the first succeeding candidate, with
exactly the earlier (failing) candidates and the winner invoked, in rank
order, and nobody after the winner.  If every candidate fails, the result
is the all-agents-failed error, after invoking each candidate exactly once,
in rank order.  (The server-side `executeWorkflowTask`, in contrast,
contacts only `findBestAgent`'s single top candidate and resolves its
failure directly — see the counterexample.) -/
theorem dispatch_ordered_fallback (agents : List DemoAgent) (t : WTask)
    (att : DemoAgent → DemoResult) (cands pre : List DemoAgent)
    (hc : cands = findCandidatesDemo agents t.capability)
    (hne : cands ≠ [])
    (hp : pre = cands.takeWhile (fun a => !(att a).success)) :
    (pre = cands →
      (executeTaskDemo agents t att).1.success = false ∧
      (executeTaskDemo agents t att).1.error = some "All suitable agents failed" ∧
      (executeTaskDemo agents t att).2.1 = cands.map (fun a => a.id)) ∧
    (∀ w rest, cands = pre ++ w :: rest →
      (att w).success = true ∧
      (executeTaskDemo agents t att).1
          = ⟨t.name, some w.id, true, none, (att w).duration⟩ ∧
      (executeTaskDemo agents t att).2.1 = pre.map (fun a => a.id) ++ [w.id]) := by
  have hexec : executeTaskDemo agents t att = dispatchGo att t.name cands 0 := by
    rw [executeTaskDemo, ← hc]
    rcases cands with _ | ⟨c, cs⟩
    · exact absurd rfl hne
    · rfl
  constructor
  · intro hpc
    have htw : cands.takeWhile (fun a => !(att a).success) = cands := by
      rw [← hp, hpc]
    have hall : ∀ a ∈ cands, (att a).success = false := by
      intro a ha
      have hmem : a ∈ cands.takeWhile (fun a => !(att a).success) := by
        rw [htw]; exact ha
      have := memTakeWhile (fun a => !(att a).success) cands a hmem
      simpa using this
    have hres := dispatchGoAllFail att t.name cands 0 hall
    rw [hexec]
    exact ⟨hres.1, hres.2.1, hres.2.2⟩
  · intro w rest hsplit
    have hpw : ∀ a ∈ pre, (att a).success = false := by
      intro a ha
      have hmem : a ∈ cands.takeWhile (fun a => !(att a).success) := by
        rw [← hp]; exact ha
      have := memTakeWhile (fun a => !(att a).success) cands a hmem
      simpa using this
    have hbnd : (fun a => !(att a).success) w = false := by
      refine takeWhileBoundary (fun a => !(att a).success) cands w rest ?_
      rw [hp] at hsplit
      exact hsplit.symm
    have hw : (att w).success = true := by simpa using hbnd
    have hres := dispatchGoFirstSuccess att t.name w hw pre rest 0 hpw
    rw [hexec, hsplit]
    exact ⟨hw, hres.1, hres.2⟩

/-- Witness for claim C2 at a concrete input: one capable agent whose
attempt succeeds; dispatch returns success attributed to it and invokes
exactly it. -/
theorem dispatch_ordered_fallback_witness :
    (attW agW).success = true ∧
    (executeTaskDemo [agW] wtW attW).1
        = ⟨wtW.name, some agW.id, true, none, (attW agW).duration⟩ ∧
    (executeTaskDemo [agW] wtW attW).2.1
        = ([] : List DemoAgent).map (fun a => a.id) ++ [agW.id] :=
  (dispatch_ordered_fallback [agW] wtW attW
    (findCandidatesDemo [agW] wtW.capability) [] rfl (by decide) (by decide)).2
    agW [] (by decide)

/-- Claim C2 counterexample (server): the registry holds two ranked capable
active candidates, `[srvB, srvA]`, and the top candidate's attempt fails
(timeout).  The server-side `executeWorkflowTask` resolves that single
failure directly, attributed to the top candidate: the only assignment was
emitted to `srvB`'s socket, the lower-ranked `srvA` is never contacted, and
no all-agents-failed result is produced — the server dispatch path has no
fallback chain at all. -/
theorem server_dispatch_no_fallback_counterexample :
    findCandidates [srvB, srvA] "x" = [srvB, srvA] ∧
    executeWorkflowTaskSrv [srvB, srvA] wtC2 none
        = (⟨"t", some "B", false, some "Task timeout"⟩, some "sB") ∧
    (executeWorkflowTaskSrv [srvB, srvA] wtC2 none).1.success = false ∧
    (executeWorkflowTaskSrv [srvB, srvA] wtC2 none).1.error
        ≠ some "All suitable agents failed" ∧
    (executeWorkflowTaskSrv [srvB, srvA] wtC2 none).2 ≠ some srvA.socketId := by
  refine ⟨by decide, by decide, by decide, by decide, by decide⟩

/-- Claim C4: `executeWorkflow` partitions `workflow.tasks` into Phase P
(parallel and no declared dependencies) and Phase S (everything else, in the
workflow's original order — Phase S is a sublist of the task list); in the
control-flow trace, every Phase-P task is dispatched before any Phase-P
settlement is awaited, every Phase-P settlement precedes every Phase-S
dispatch (for any settlement order of the parallel phase), and Phase-S tasks
run one at a time in list order: each earlier Phase-S task is dispatched and
settled before a later one is dispatched. -/
theorem workflow_phase_discipline (tasks : List WTask) (so : List WTask)
    (hso : so.Perm (phaseP tasks)) :
    (phaseP tasks ++ phaseS tasks).Perm tasks ∧
    (∀ t, t ∈ phaseP tasks ↔ t ∈ tasks ∧ t.parallel = true ∧ t.dependencies = none) ∧
    (phaseS tasks).Sublist tasks ∧
    (∀ p ∈ phaseP tasks, ∀ q ∈ phaseP tasks,
      [WEvent.dispatchP p.name, WEvent.settleP q.name].Sublist (workflowTrace tasks so)) ∧
    (∀ p ∈ phaseP tasks, ∀ s ∈ phaseS tasks,
      [WEvent.settleP p.name, WEvent.dispatchS s.name].Sublist (workflowTrace tasks so)) ∧
    (∀ pre t1 mid t2 post, phaseS tasks = pre ++ t1 :: mid ++ t2 :: post →
      [WEvent.dispatchS t1.name, WEvent.settleS t1.name,
        WEvent.dispatchS t2.name].Sublist (workflowTrace tasks so)) := by
  refine ⟨phasePartitionPerm tasks, ?_, ?_, ?_, ?_, ?_⟩
  · intro t
    simp [phaseP, List.mem_filter, Option.isNone_iff_eq_none]
  · exact List.filter_sublist tasks
  · intro p hp q hq
    have h1 : [WEvent.dispatchP p.name].Sublist
        ((phaseP tasks).map (fun t => WEvent.dispatchP t.name)) :=
      List.singleton_sublist.mpr (List.mem_map.mpr ⟨p, hp, rfl⟩)
    have h2 : [WEvent.settleP q.name].Sublist
        (so.map (fun t => WEvent.settleP t.name)) :=
      List.singleton_sublist.mpr (List.mem_map.mpr ⟨q, hso.mem_iff.mpr hq, rfl⟩)
    have h12 := h1.append h2
    exact h12.append (List.nil_sublist _)
  · intro p hp s hs
    have h1 : [WEvent.settleP p.name].Sublist
        (so.map (fun t => WEvent.settleP t.name)) :=
      List.singleton_sublist.mpr (List.mem_map.mpr ⟨p, hso.mem_iff.mpr hp, rfl⟩)
    have h2 : [WEvent.dispatchS s.name].Sublist
        ((phaseS tasks).flatMap
          (fun t => [WEvent.dispatchS t.name, WEvent.settleS t.name])) :=
      List.singleton_sublist.mpr (List.mem_flatMap.mpr ⟨s, hs, by simp⟩)
    exact (subApp _ h1).append h2
  · intro pre t1 mid t2 post hsplit
    have h1 : [WEvent.dispatchS t1.name, WEvent.settleS t1.name].Sublist
        ((pre ++ t1 :: mid).flatMap
          (fun t => [WEvent.dispatchS t.name, WEvent.settleS t.name])) := by
      rw [List.flatMap_append, List.flatMap_cons]
      exact subApp _ (List.sublist_append_left _ _)
    have h2 : [WEvent.dispatchS t2.name].Sublist
        ((t2 :: post).flatMap
          (fun t => [WEvent.dispatchS t.name, WEvent.settleS t.name])) :=
      List.singleton_sublist.mpr (List.mem_flatMap.mpr ⟨t2, by simp, by simp⟩)
    have h12 := h1.append h2
    rw [← List.flatMap_append, ← hsplit] at h12
    unfold workflowTrace
    exact subApp _ h12

/-- Witness for claim C4 at a concrete workflow: parallel tasks A, B, C and
dependent task D; with settlement order C, A, B, the settlement of A
precedes the dispatch of D in the trace. -/
theorem workflow_phase_discipline_witness :
    [WEvent.settleP wtA.name, WEvent.dispatchS wtD.name].Sublist
      (workflowTrace [wtA, wtB, wtC, wtD] [wtC, wtA, wtB]) :=
  (workflow_phase_discipline [wtA, wtB, wtC, wtD] [wtC, wtA, wtB]
    (by decide)).2.2.2.2.1 wtA (by decide) wtD (by decide)

/-- Claim C5 (amended, demo orchestrator): the demo workflow result carries
exactly one task result per contained task, and its `success` flag is true
iff every task result is successful.  (The server-side `executeWorkflow`, in
contrast, marks the workflow `completed` unconditionally — see the
counterexample.) -/
theorem demo_workflow_aggregate (agents : List DemoAgent) (w : DemoWorkflow)
    (att : WTask → DemoAgent → DemoResult) :
    (executeWorkflowDemo agents w att).results.length = w.tasks.length ∧
    ((executeWorkflowDemo agents w att).success = true ↔
      ∀ r ∈ (executeWorkflowDemo agents w att).results, r.success = true) := by
  have hlen : (phaseP w.tasks).length + (phaseS w.tasks).length = w.tasks.length := by
    have hperm := (phasePartitionPerm w.tasks).length_eq
    simpa [List.length_append] using hperm
  constructor
  · simp [executeWorkflowDemo, List.length_append, hlen]
  · have hall : (executeWorkflowDemo agents w att).success
        = (executeWorkflowDemo agents w att).results.all (fun r => r.success) := rfl
    rw [hall]
    exact List.all_eq_true

/-- Claim C5 counterexample (server): a workflow with a single task that
fails (no capable agent exists) still ends with terminal status
`completed`, although not every task result is successful. -/
theorem server_workflow_completed_despite_failure :
    (executeWorkflowSrv [] wfC5 (fun _ => none)).status = "completed" ∧
    ((executeWorkflowSrv [] wfC5 (fun _ => none)).results.all
        (fun r => r.success)) = false := by
  refine ⟨by decide, by decide⟩

/-- Claim C6 (amended): `updatePerformance` increments the attempts counter
(`performance.totalTasks`) unconditionally; on success it increments the
success counter (`tasksCompleted`) and adds the latency to the cumulative
successful-latency total (`performance.totalResponseTime`); on failure
those counters and the derived `avgResponseTime` are unchanged, but the
stored `successRate` field is recomputed as `tasksCompleted / totalTasks`
(so it does change whenever the agent has a nonzero success count or a
non-default stored rate). -/
theorem updatePerformance_counters (a : OAgent) (responseTime : ℚ) :
    (updatePerformance a responseTime false).performance.totalTasks
        = a.performance.totalTasks + 1 ∧
    (updatePerformance a responseTime false).tasksCompleted = a.tasksCompleted ∧
    (updatePerformance a responseTime false).performance.totalResponseTime
        = a.performance.totalResponseTime ∧
    (updatePerformance a responseTime false).avgResponseTime = a.avgResponseTime ∧
    (updatePerformance a responseTime false).performance.successRate
        = (a.tasksCompleted : ℚ) / ((a.performance.totalTasks + 1 : ℕ) : ℚ) ∧
    (updatePerformance a responseTime true).performance.totalTasks
        = a.performance.totalTasks + 1 ∧
    (updatePerformance a responseTime true).tasksCompleted = a.tasksCompleted + 1 ∧
    (updatePerformance a responseTime true).performance.totalResponseTime
        = a.performance.totalResponseTime + responseTime := by
  refine ⟨?_, ?_, ?_, ?_, ?_, ?_, ?_, ?_⟩ <;> simp [updatePerformance]

/-- Claim C6 counterexample: an agent with one successful attempt has stored
`successRate` 1; recording a failure changes the stored `successRate` to
one half — a statistic other than the attempts counter changed on a failed
outcome. -/
theorem failure_changes_successRate :
    agC6.performance.successRate = 1 ∧
    (updatePerformance agC6 50 false).tasksCompleted = agC6.tasksCompleted ∧
    (updatePerformance agC6 50 false).performance.successRate = 1 / 2 ∧
    (updatePerformance agC6 50 false).performance.successRate
        ≠ agC6.performance.successRate := by
  have h1 : agC6.performance.successRate = 1 := by
    norm_num [agC6, newOrchestrationAgent, updatePerformance]
  have h2 : (updatePerformance agC6 50 false).performance.successRate = 1 / 2 := by
    norm_num [agC6, newOrchestrationAgent, updatePerformance]
  refine ⟨h1, by simp [updatePerformance], h2, ?_⟩
  rw [h1, h2]
  norm_num

/-- Claim C7 (amended): for every reachable agent state, after at least one
recorded attempt the stored `successRate` equals successes divided by
attempts; with zero recorded attempts it is the optimistic initial value
`0.95` (not 0), so a freshly registered agent ranks above any agent whose
lifetime ratio is below `0.95`. -/
theorem successRate_lifetime_ratio (id : String) (caps : List String)
    (sid : String) (outs : List (ℚ × Bool)) :
    (applyUpdates (newOrchestrationAgent id caps sid) outs).performance.totalTasks
        = outs.length ∧
    (applyUpdates (newOrchestrationAgent id caps sid) outs).tasksCompleted
        = (outs.filter (fun o => o.2)).length ∧
    (outs = [] →
      (applyUpdates (newOrchestrationAgent id caps sid) outs).performance.successRate
        = 19 / 20) ∧
    (outs ≠ [] →
      (applyUpdates (newOrchestrationAgent id caps sid) outs).performance.successRate
        = ((applyUpdates (newOrchestrationAgent id caps sid) outs).tasksCompleted : ℚ)
          / ((applyUpdates (newOrchestrationAgent id caps sid) outs).performance.totalTasks : ℚ)) := by
  refine ⟨?_, ?_, ?_, ?_⟩
  · simpa [newOrchestrationAgent] using
      applyUpdatesTotal outs (newOrchestrationAgent id caps sid)
  · simpa [newOrchestrationAgent] using
      applyUpdatesCompleted outs (newOrchestrationAgent id caps sid)
  · intro h
    subst h
    rfl
  · intro h
    exact applyUpdatesRate outs (newOrchestrationAgent id caps sid) h

/-- Witness for claim C7 at a concrete input: after one successful attempt,
the stored rate equals successes over attempts. -/
theorem successRate_lifetime_ratio_witness :
    (applyUpdates (newOrchestrationAgent "A" ["x"] "s")
        [((100 : ℚ), true)]).performance.successRate
      = ((applyUpdates (newOrchestrationAgent "A" ["x"] "s")
            [((100 : ℚ), true)]).tasksCompleted : ℚ)
        / ((applyUpdates (newOrchestrationAgent "A" ["x"] "s")
              [((100 : ℚ), true)]).performance.totalTasks : ℚ) :=
  (successRate_lifetime_ratio "A" ["x"] "s" [((100 : ℚ), true)]).2.2.2 (by simp)

/-- Claim C7 counterexample: a freshly registered agent has stored
`successRate` `0.95`, not 0, and `findBestAgent` ranks it above an agent
with a positive lifetime ratio of one half — the claim that a fresh agent
ranks below every agent with a positive lifetime success ratio is false. -/
theorem fresh_agent_ranks_high_counterexample :
    freshC7.performance.totalTasks = 0 ∧
    freshC7.performance.successRate = 19 / 20 ∧
    freshC7.performance.successRate ≠ 0 ∧
    veteranC7.performance.successRate = 1 / 2 ∧
    0 < veteranC7.performance.successRate ∧
    findBestAgent [veteranC7, freshC7] "x" = some freshC7 := by
  have hrate : freshC7.performance.successRate = 19 / 20 := rfl
  have hvr : veteranC7.performance.successRate = 1 / 2 := by
    simp only [veteranC7, applyUpdates, List.foldl_cons, List.foldl_nil,
      newOrchestrationAgent, updatePerformance]
    norm_num
  have hncond : ¬ agentLe veteranC7 freshC7 := by
    show ¬ (freshC7.performance.successRate ≤ veteranC7.performance.successRate)
    rw [hrate, hvr]
    norm_num
  refine ⟨rfl, hrate, by rw [hrate]; norm_num, hvr, by rw [hvr]; norm_num, ?_⟩
  have hfil : List.filter (fun a => suitable a "x") [veteranC7, freshC7]
      = [veteranC7, freshC7] := rfl
  show (List.insertionSort agentLe
      (List.filter (fun a => suitable a "x") [veteranC7, freshC7])).head? = some freshC7
  rw [hfil]
  show (if agentLe veteranC7 freshC7 then veteranC7 :: [freshC7]
      else freshC7 :: List.orderedInsert agentLe veteranC7 []).head? = some freshC7
  rw [if_neg hncond]
  rfl

/-- Claim C8: when no registered agent can handle the task's capability,
dispatch returns the no-capable-agent failure without contacting any worker:
the demo dispatcher returns its failure result with an empty invocation list
and no agent-state updates, and the server-side `executeWorkflowTask`
returns its failure result without emitting an assignment, whatever the
attempt oracle would have answered. -/
theorem no_capable_agent_no_contact (agents : List DemoAgent)
    (registry : List OAgent) (t : WTask) (att : DemoAgent → DemoResult)
    (h1 : findCandidatesDemo agents t.capability = [])
    (h2 : findBestAgent registry t.capability = none) :
    executeTaskDemo agents t att
        = (⟨t.name, none, false, some "No suitable agent found", 0⟩, [], []) ∧
    ∀ o : Option Bool, executeWorkflowTaskSrv registry t o
        = (⟨t.name, none, false, some "No suitable agent available"⟩, none) := by
  constructor
  · simp [executeTaskDemo, h1]
  · intro o
    simp [executeWorkflowTaskSrv, h2]

/-- Witness for claim C8 at a concrete input: empty registries. -/
theorem no_capable_agent_no_contact_witness :
    executeTaskDemo [] wtW attW
        = (⟨wtW.name, none, false, some "No suitable agent found", 0⟩, [], []) ∧
    executeWorkflowTaskSrv [] wtW none
        = (⟨wtW.name, none, false, some "No suitable agent available"⟩, none) :=
  ⟨(no_capable_agent_no_contact [] [] wtW attW rfl rfl).1,
    (no_capable_agent_no_contact [] [] wtW attW rfl rfl).2 none⟩

/-- Claim C9: running a demo agent through any sequence of attempt outcomes
never changes its `successRate` (nor its identity, capability set,
`avgResponseTime` parameter, or activity flag) — the ranking key stays the
value fixed at construction; moreover a failed attempt changes nothing at
all, so only successful attempts mutate `tasksCompleted` and
`totalResponseTime`. -/
theorem demo_agent_successRate_frame (a : DemoAgent) (outs : List (Bool × ℚ)) :
    (demoRun a outs).successRate = a.successRate ∧
    (demoRun a outs).id = a.id ∧
    (demoRun a outs).capabilities = a.capabilities ∧
    (demoRun a outs).avgResponseTime = a.avgResponseTime ∧
    (demoRun a outs).isActive = a.isActive ∧
    ∀ d : ℚ, demoApplyOutcome a false d = a := by
  have h := demoRunFrame outs a
  exact ⟨h.1, h.2.1, h.2.2.1, h.2.2.2.1, h.2.2.2.2,
    fun d => by simp [demoApplyOutcome]⟩

/-- Claim C10: `POST /tasks` with a capability no registered active agent
can handle still creates and stores the task and responds 201 with it; the
task stays `pending` with `assignedAgent` null and no assignment is emitted
to any worker. -/
theorem post_tasks_unassignable_pending (registry : List OAgent)
    (tasks : List StoredTask) (rType rCap rPriority freshId : String)
    (h : findBestAgent registry rCap = none) :
    postTasks registry tasks rType rCap rPriority freshId
      = (201, ⟨freshId, rType, rCap, rPriority, "pending", none⟩,
          tasks ++ [⟨freshId, rType, rCap, rPriority, "pending", none⟩], none) := by
  simp [postTasks, h]

/-- Witness for claim C10 at a concrete input: empty registry. -/
theorem post_tasks_unassignable_pending_witness :
    postTasks [] [] "analysis" "x" "medium" "id1"
      = (201, ⟨"id1", "analysis", "x", "medium", "pending", none⟩,
          [⟨"id1", "analysis", "x", "medium", "pending", none⟩], none) :=
  post_tasks_unassignable_pending [] [] "analysis" "x" "medium" "id1" rfl
